import Mathlib

/-
Verification of the color-analysis core of the gobananas repository
(src/utils/color_detection.py) against its natural-language specification.

The Python code is shallowly embedded: hues and other float quantities are
modelled as exact rationals (ℚ), Python ints as ℤ/ℕ, raised exceptions as
`Except PyErr`.  Each definition below mirrors one function or constant of
src/utils/color_detection.py; definitions whose doc comment starts with
"Modelled from the spec" instead transcribe the specification's words and
exist only to be compared with the code-derived definitions.
-/

namespace ColorDetection

/-- Python exception kinds raised by the embedded code: `ValueError`
(the spec's InvalidColorFormat / InvalidImageFormat) and `KeyError`
(the spec's OutOfRangeStage, raised by a failed dict lookup). -/
inductive PyErr
  | valueError
  | keyError
deriving DecidableEq

deriving instance DecidableEq for Except

/-- Python's built-in `round` on an exact rational: round half to even. -/
def pyRound (q : ℚ) : Int :=
  let n := ⌊q⌋
  if q - n < 1/2 then n
  else if 1/2 < q - n then n + 1
  else if n % 2 = 0 then n else n + 1

/-- Python's `%` (floor-mod) on rationals, for a positive modulus. -/
def pymod (x m : ℚ) : ℚ := x - m * ⌊x / m⌋

/-- The `DURATION_RANGES` dict of color_detection.py: stage ↦ (min_days, max_days);
lookup of a missing key is a `KeyError`, modelled by `none`. -/
def DURATION_RANGES (s : Int) : Option (Int × Int) :=
  if s = 1 then some (1, 4)
  else if s = 2 then some (1, 3)
  else if s = 3 then some (1, 3)
  else if s = 4 then some (1, 3)
  else if s = 5 then some (1, 3)
  else if s = 6 then some (1, 3)
  else if s = 7 then some (2, 5)
  else none

/-- The accumulation loop `for current_stage in range(stage, 6)` of
`estimate_days_until_peak`: starting at stage `s`, iterate `fuel` times,
adding `(min_days + max_days) / 2` per stage; a missing dict key raises. -/
def sumAvgFrom : Int → Nat → Except PyErr ℚ
  | _, 0 => .ok 0
  | s, n + 1 =>
    match DURATION_RANGES s with
    | none => .error .keyError
    | some (mn, mx) =>
      match sumAvgFrom (s + 1) n with
      | .error e => .error e
      | .ok rest => .ok (((mn : ℚ) + mx) / 2 + rest)

/-- `estimate_days_until_peak` of color_detection.py:
`if stage >= 6: return 0`, else sum the per-stage average durations over
`range(stage, 6)` and return `round(total_days)`. -/
def estimate_days_until_peak (stage : Int) : Except PyErr Int :=
  if 6 ≤ stage then .ok 0
  else (sumAvgFrom stage (6 - stage).toNat).map pyRound

/-- The if/elif chain of `hue_to_stage`, applied to the already
normalized hue. -/
def stageOfNormalized (h : ℚ) : Int :=
  if 60 ≤ h ∧ h ≤ 120 then 1
  else if 50 ≤ h ∧ h < 60 then 2
  else if 40 ≤ h ∧ h < 50 then 3
  else if 30 ≤ h ∧ h < 40 then 4
  else if 25 ≤ h ∧ h < 30 then 5
  else if 20 ≤ h ∧ h < 25 then 6
  else if 0 ≤ h ∧ h < 20 then 7
  else 3

/-- `hue_to_stage` of color_detection.py: `hue = hue % 360` followed by the
first-match if/elif range scan, defaulting to stage 3. -/
def hue_to_stage (hue : ℚ) : Int :=
  stageOfNormalized (pymod hue 360)

/-- The `stage_hue_ranges` dict of `calculate_stage_confidence`. -/
def stage_hue_ranges (s : Int) : Option (ℚ × ℚ) :=
  if s = 1 then some (60, 120)
  else if s = 2 then some (50, 60)
  else if s = 3 then some (40, 50)
  else if s = 4 then some (30, 40)
  else if s = 5 then some (25, 30)
  else if s = 6 then some (20, 25)
  else if s = 7 then some (0, 20)
  else none

/-- `calculate_stage_confidence` of color_detection.py:
default 0.5 for an unknown stage, else
`min(1.0, max(0.3, 1.0 - |hue - center| / (range_width / 2)))`. -/
def calculate_stage_confidence (hue : ℚ) (stage : Int) : ℚ :=
  match stage_hue_ranges stage with
  | none => 1/2
  | some (min_hue, max_hue) =>
    let center_hue := (min_hue + max_hue) / 2
    let range_width := max_hue - min_hue
    let distance_from_center := |hue - center_hue|
    min 1 (max (3/10) (1 - distance_from_center / (range_width / 2)))

/-- Membership test of the Python string `'0123456789ABCDEFabcdef'` used by
`hex_to_hue` to validate characters. -/
def isPyHexDigit (c : Char) : Bool :=
  decide (('0' ≤ c ∧ c ≤ '9') ∨ ('A' ≤ c ∧ c ≤ 'F') ∨ ('a' ≤ c ∧ c ≤ 'f'))

/-- Value of one hex digit, as computed by Python's `int(_, 16)` on a
character already validated by `isPyHexDigit`. -/
def hexVal (c : Char) : ℕ :=
  if '0' ≤ c ∧ c ≤ '9' then c.toNat - '0'.toNat
  else if 'A' ≤ c ∧ c ≤ 'F' then c.toNat - 'A'.toNat + 10
  else if 'a' ≤ c ∧ c ≤ 'f' then c.toNat - 'a'.toNat + 10
  else 0

/-- Python's `str.lstrip('#')`: drop every leading `'#'` character. -/
def lstripHash : List Char → List Char
  | [] => []
  | c :: cs => if c = '#' then lstripHash cs else c :: cs

/-- The 3-digit expansion `''.join([c*2 for c in hex_color])` of `hex_to_hue`. -/
def expand3 (l : List Char) : List Char :=
  (l.map (fun c => [c, c])).flatten

/-- Hue channel of `colorsys.rgb_to_hsv` (the only channel `hex_to_hue` uses):
0 when max = min, otherwise the fractional part of h/6 built from the
first-maximal channel, exactly as in the Python standard library. -/
def rgb_to_hsv_h (r g b : ℚ) : ℚ :=
  let maxc := max r (max g b)
  let minc := min r (min g b)
  if minc = maxc then 0
  else
    let d := maxc - minc
    let rc := (maxc - r) / d
    let gc := (maxc - g) / d
    let bc := (maxc - b) / d
    let h := if r = maxc then bc - gc
             else if g = maxc then 2 + rc - bc
             else 4 + gc - rc
    h / 6 - ⌊h / 6⌋

/-- `hex_to_hue` of color_detection.py on a string (as a list of characters):
reject the empty string, strip leading `'#'`, require length 3 or 6,
double each character of a 3-digit form, validate hex characters, parse the
three 8-bit channels, normalize to [0,1], and return `rgb_to_hsv`'s hue
times 360.  Every raise in the source is a `ValueError`, re-raised by the
`except ValueError` arm, so the source's final `except Exception: return 60.0`
arm is unreachable for string input and absent here.  The source's re-check
`0 <= r,g,b <= 1` is a tautology on parsed 8-bit channels and is omitted. -/
def hex_to_hue (s : List Char) : Except PyErr ℚ :=
  if s = [] then .error .valueError
  else
    let t := lstripHash s
    if t.length = 3 ∨ t.length = 6 then
      let u := if t.length = 3 then expand3 t else t
      if u.all isPyHexDigit then
        let r : ℚ := (hexVal (u.getD 0 '0') * 16 + hexVal (u.getD 1 '0') : ℕ) / 255
        let g : ℚ := (hexVal (u.getD 2 '0') * 16 + hexVal (u.getD 3 '0') : ℕ) / 255
        let b : ℚ := (hexVal (u.getD 4 '0') * 16 + hexVal (u.getD 5 '0') : ℕ) / 255
        .ok (rgb_to_hsv_h r g b * 360)
      else .error .valueError
    else .error .valueError

/-- `round(hue / 5) * 5`: the 5-degree bucketing of `extract_dominant_color`
applied to one 8-bit hue sample. -/
def bucketOf (h : ℕ) : Int :=
  pyRound ((h : ℚ) / 5) * 5

/-- Keys of a Python dict built by iterating over a list: each distinct value
once, in order of first occurrence. -/
def dedupFirst : List Int → List Int
  | [] => []
  | x :: xs => x :: (dedupFirst xs).filter (fun y => y ≠ x)

/-- Python's `max(iterable, key=f)` scanning left to right from an initial
candidate, replacing it only on a strictly greater `f`-value, so the first
of tied maximal items wins. -/
def pyMaxKey (f : Int → ℕ) (acc : Int) : List Int → Int
  | [] => acc
  | x :: xs => pyMaxKey f (if f acc < f x then x else acc) xs

/-- The histogram part of `extract_dominant_color`, starting from the list of
8-bit hue samples taken from the HSV pixels: raise `ValueError` on an empty
sample list (`if not pixels` / `if not hue_values`), bucket each sample to
the nearest multiple of 5, count occurrences per bucket (dict keys in first
occurrence order), raise on an empty histogram (`if not hue_counts`), take
the most frequent bucket via `max(hue_counts, key=hue_counts.get)` — first
wins ties — and convert it to degrees by `(bucket / 255) * 360`. -/
def extract_dominant_from_hues (hues : List ℕ) : Except PyErr ℚ :=
  if hues = [] then .error .valueError
  else
    let buckets := hues.map bucketOf
    let keys := dedupFirst buckets
    if keys = [] then .error .valueError
    else
      let d := pyMaxKey (fun x => buckets.count x) (keys.headD 0) keys.tail
      .ok ((d : ℚ) / 255 * 360)

/-- Outcome of `PIL.Image.open` on the byte buffer, abstracted: either the
decode raises (`fail`), or it yields an image whose HSV pixel triples are
given (`ok`).  PIL itself is a third-party library outside the repository. -/
inductive DecodeResult
  | fail
  | ok (pixels : List (ℕ × ℕ × ℕ))

/-- `extract_dominant_color` of color_detection.py, with PIL abstracted by a
`DecodeResult` and with `unexpectedFailure` marking whether some
non-`ValueError` exception occurs after input validation: empty bytes and
undecodable images raise `ValueError` (re-raised by the `except ValueError`
arm); any other unexpected exception is absorbed by the final
`except Exception` arm, which returns the default hue 60.0; otherwise the
hue channel of every pixel feeds the dominant-hue histogram. -/
def extract_dominant_color (imageBytes : List ℕ) (dec : DecodeResult)
    (unexpectedFailure : Bool) : Except PyErr ℚ :=
  if imageBytes = [] then .error .valueError
  else
    match dec with
    | .fail => .error .valueError
    | .ok pixels =>
      if unexpectedFailure then .ok 60
      else extract_dominant_from_hues (pixels.map (fun p => p.1))

/-- Python's `range(lo, hi)` (a half-open integer interval), by fuel. -/
def intRangeAux (lo : Int) : Nat → List Int
  | 0 => []
  | n + 1 => lo :: intRangeAux (lo + 1) n

/-- Python's `range(lo, hi)` as a list of integers. -/
def intRange (lo hi : Int) : List Int := intRangeAux lo (hi - lo).toNat

/-- The arithmetic mean `(min_days + max_days) / 2` of a stage's duration
range (0 for a stage that has none). -/
def avgDuration (s : Int) : ℚ :=
  match DURATION_RANGES s with
  | some (mn, mx) => ((mn : ℚ) + mx) / 2
  | none => 0

/-- Modelled from the spec (§4.3): 0 at or past peak, otherwise the sum of
the per-stage mean durations from the input stage up to and excluding 6,
rounded to the nearest integer (half to even, as the code's `round`). -/
def specDaysUntilPeak (stage : Int) : Int :=
  if 6 ≤ stage then 0 else pyRound (((intRange stage 6).map avgDuration).sum)

/-- The total duration sum: the sum over all seven stages of the mean of
that stage's `(min_days, max_days)` range. -/
def totalDurationSum : ℚ := ((intRange 1 8).map avgDuration).sum

/-- Modelled from the spec (§4.2, canonical table): first-match scan
[60,120]→1, [45,60)→2, [35,45)→3, [25,35)→4, [20,25)→6, [0,20)→7,
default 3, on the hue normalized modulo 360.  Stage 5 never appears. -/
def canonical_hue_to_stage (hue : ℚ) : Int :=
  let h := pymod hue 360
  if 60 ≤ h ∧ h ≤ 120 then 1
  else if 45 ≤ h ∧ h < 60 then 2
  else if 35 ≤ h ∧ h < 45 then 3
  else if 25 ≤ h ∧ h < 35 then 4
  else if 20 ≤ h ∧ h < 25 then 6
  else if 0 ≤ h ∧ h < 20 then 7
  else 3

/-- The well-formedness condition actually enforced by `hex_to_hue`
(source-derived): after stripping ALL leading '#' characters the remainder
has length 3 or 6 and consists of hex digits (checked after the 3-digit
expansion, which preserves the set of characters). -/
def goodHex (s : List Char) : Prop :=
  ((lstripHash s).length = 3 ∨ (lstripHash s).length = 6) ∧
  (if (lstripHash s).length = 3 then expand3 (lstripHash s) else lstripHash s).all
    isPyHexDigit = true

/-- Modelled from the spec: stripping "an optional '#' prefix" removes at
most one leading '#'. -/
def stripOneHash : List Char → List Char
  | '#' :: cs => cs
  | s => s

/-- Modelled from the spec (C6's wording): the input is well formed when,
after stripping an optional '#' prefix, it is a string of 3 or 6 hex
digits. -/
def specWellFormedHex (s : List Char) : Prop :=
  ((stripOneHash s).length = 3 ∨ (stripOneHash s).length = 6) ∧
  (stripOneHash s).all isPyHexDigit = true

/-- C1: the code's `hue_to_stage` does not implement the canonical first-match
table of §4.2 — at hue 27 the code returns stage 5 (which the claim says is
never returned; the canonical table gives 4), at hue 45 it returns 3 where the
canonical table gives 2, and at hue 35 it returns 4 where the canonical table
gives 3.  The repository's own test suite asserts the canonical values at
hues 45, 35, 25 and 29, so the code contradicts its tests. -/
theorem hue_to_stage_contradicts_canonical_table :
    hue_to_stage 27 = 5 ∧ canonical_hue_to_stage 27 = 4 ∧
    hue_to_stage 45 = 3 ∧ canonical_hue_to_stage 45 = 2 ∧
    hue_to_stage 35 = 4 ∧ canonical_hue_to_stage 35 = 3 ∧
    hue_to_stage 25 = 5 ∧ canonical_hue_to_stage 25 = 4 := by
  refine ⟨?_, ?_, ?_, ?_, ?_, ?_, ?_, ?_⟩ <;>
    norm_num [hue_to_stage, canonical_hue_to_stage, stageOfNormalized, pymod]

/-- C5: `hue_to_stage` is total (it is a function on all of ℚ, covering
negative hues and hues at or above 360) and always returns a stage
in {1, ..., 7}. -/
theorem hue_to_stage_total_and_in_range (hue : ℚ) :
    1 ≤ hue_to_stage hue ∧ hue_to_stage hue ≤ 7 := by
  unfold hue_to_stage stageOfNormalized
  split_ifs <;> norm_num

/-- C3: for every stage in {1, ..., 7}, `estimate_days_until_peak` succeeds
and returns 0 for stage ≥ 6, and otherwise the sum over the stages from the
input up to and excluding 6 of the mean `(min_days + max_days) / 2`, rounded
to the nearest integer (half to even); the result is a non-negative integer
no greater than the total duration sum. -/
theorem estimate_days_until_peak_correct (stage : Int)
    (h1 : 1 ≤ stage) (h7 : stage ≤ 7) :
    estimate_days_until_peak stage = .ok (specDaysUntilPeak stage) ∧
    0 ≤ specDaysUntilPeak stage ∧
    (specDaysUntilPeak stage : ℚ) ≤ totalDurationSum := by
  interval_cases stage <;>
    refine ⟨?_, ?_, ?_⟩ <;>
      norm_num [estimate_days_until_peak, specDaysUntilPeak, totalDurationSum, intRange,
        intRangeAux, sumAvgFrom, avgDuration, DURATION_RANGES, Except.map, pyRound]

/-- Witness for C3 at stage 1: the estimate is 10 days
(2.5 + 2 + 2 + 2 + 2 = 10.5, rounded half to even). -/
theorem estimate_days_until_peak_correct_witness :
    estimate_days_until_peak 1 = .ok (specDaysUntilPeak 1) ∧
    0 ≤ specDaysUntilPeak 1 ∧
    (specDaysUntilPeak 1 : ℚ) ≤ totalDurationSum :=
  estimate_days_until_peak_correct 1 (by norm_num) (by norm_num)

/-- C8: for every stage strictly below 1 the duration lookup fails, so
`estimate_days_until_peak` raises (a `KeyError`, the spec's `OutOfRangeStage`)
rather than returning a number. -/
theorem estimate_days_until_peak_fails_below_one (stage : Int) (h : stage < 1) :
    estimate_days_until_peak stage = .error .keyError := by
  have hfuel : ((6 : Int) - stage).toNat = ((5 : Int) - stage).toNat + 1 := by omega
  have hdr : DURATION_RANGES stage = none := by
    unfold DURATION_RANGES
    rw [if_neg (by omega), if_neg (by omega), if_neg (by omega), if_neg (by omega),
      if_neg (by omega), if_neg (by omega), if_neg (by omega)]
  rw [estimate_days_until_peak, if_neg (by omega), hfuel, sumAvgFrom, hdr]
  simp [Except.map]

/-- Witness for C8 at stage 0, matching the repository test
`assertRaises(KeyError): estimate_days_until_peak(0)`. -/
theorem estimate_days_until_peak_fails_below_one_witness :
    estimate_days_until_peak 0 = .error .keyError :=
  estimate_days_until_peak_fails_below_one 0 (by norm_num)

/-- C4: for every hue and every stage with a known hue range (lo, hi),
`calculate_stage_confidence` returns
`clamp(1 - |hue - center| / half_width, min = 0.3, max = 1.0)` with
`center = (lo + hi)/2` and `half_width = (hi - lo)/2`; the value always lies
in [0.3, 1.0], equals 1.0 when the hue is the range center, and is at least
the 0.3 floor at the exact range edges; a stage with no known range gets the
neutral default 0.5.  The function is total on all (hue, stage) inputs. -/
theorem calculate_stage_confidence_correct (hue : ℚ) (stage : Int) :
    (∀ lo hi, stage_hue_ranges stage = some (lo, hi) →
      calculate_stage_confidence hue stage
          = min 1 (max (3/10) (1 - |hue - (lo + hi) / 2| / ((hi - lo) / 2))) ∧
        3/10 ≤ calculate_stage_confidence hue stage ∧
        calculate_stage_confidence hue stage ≤ 1 ∧
        (hue = (lo + hi) / 2 → calculate_stage_confidence hue stage = 1) ∧
        ((hue = lo ∨ hue = hi) → 3/10 ≤ calculate_stage_confidence hue stage)) ∧
    (stage_hue_ranges stage = none → calculate_stage_confidence hue stage = 1/2) := by
  constructor
  · intro lo hi h
    have hc : calculate_stage_confidence hue stage
        = min 1 (max (3/10) (1 - |hue - (lo + hi) / 2| / ((hi - lo) / 2))) := by
      unfold calculate_stage_confidence
      rw [h]
    refine ⟨hc, ?_, ?_, ?_, ?_⟩
    · rw [hc]; exact le_min (by norm_num) (le_max_left _ _)
    · rw [hc]; exact min_le_left _ _
    · intro he
      rw [hc, he, sub_self, abs_zero, zero_div, sub_zero,
        max_eq_right (by norm_num : (3:ℚ)/10 ≤ 1), min_self]
    · intro _
      rw [hc]; exact le_min (by norm_num) (le_max_left _ _)
  · intro h
    unfold calculate_stage_confidence
    rw [h]

/-- Witness for C4: at the center of stage 1's range (hue 90) the confidence
is the maximum 1; at the unknown stage 99 it is the neutral default 0.5. -/
theorem calculate_stage_confidence_correct_witness :
    calculate_stage_confidence 90 1 = 1 ∧ calculate_stage_confidence 90 99 = 1/2 :=
  ⟨((calculate_stage_confidence_correct 90 1).1 60 120 rfl).2.2.2.1 (by norm_num),
   (calculate_stage_confidence_correct 90 99).2 rfl⟩

theorem fract_bounds (x : ℚ) : 0 ≤ x - ⌊x⌋ ∧ x - ⌊x⌋ < 1 :=
  ⟨by linarith [Int.floor_le x], by linarith [Int.lt_floor_add_one x]⟩

theorem rgb_to_hsv_h_bounds (r g b : ℚ) :
    0 ≤ rgb_to_hsv_h r g b ∧ rgb_to_hsv_h r g b < 1 := by
  simp only [rgb_to_hsv_h]
  split_ifs <;> first | exact fract_bounds _ | norm_num

theorem mul360_bounds (v : ℚ) (h : 0 ≤ v ∧ v < 1) : 0 ≤ v * 360 ∧ v * 360 < 360 :=
  ⟨by nlinarith [h.1], by nlinarith [h.2]⟩

theorem hex_to_hue_ok_range (s : List Char) (q : ℚ) (h : hex_to_hue s = .ok q) :
    0 ≤ q ∧ q < 360 := by
  simp only [hex_to_hue] at h
  split_ifs at h <;>
    first
      | (simp only [Except.ok.injEq] at h; subst h;
         exact mul360_bounds _ (rgb_to_hsv_h_bounds _ _ _))
      | simp at h

theorem pyRound_bounds (q : ℚ) (h0 : 0 ≤ q) (h51 : q ≤ 51) :
    0 ≤ pyRound q ∧ pyRound q ≤ 51 := by
  have hf0 : (0 : ℤ) ≤ ⌊q⌋ := Int.floor_nonneg.mpr h0
  have hfl : ⌊q⌋ ≤ 51 := by
    have h := Int.floor_le_floor h51
    simpa using h
  have hq : (⌊q⌋ : ℚ) ≤ q := Int.floor_le q
  simp only [pyRound]
  split_ifs with ha hb hc
  · exact ⟨hf0, hfl⟩
  · have h2 : 2 * ((⌊q⌋ : ℚ)) ≤ 101 := by linarith
    have h2i : 2 * ⌊q⌋ ≤ (101 : ℤ) := by exact_mod_cast h2
    constructor <;> omega
  · exact ⟨hf0, hfl⟩
  · have hhalf : (1 : ℚ) / 2 ≤ q - ⌊q⌋ := by linarith [not_lt.mp ha]
    have h2 : 2 * ((⌊q⌋ : ℚ)) ≤ 101 := by linarith
    have h2i : 2 * ⌊q⌋ ≤ (101 : ℤ) := by exact_mod_cast h2
    constructor <;> omega

theorem bucketOf_bounds (h : ℕ) (hle : h ≤ 255) :
    0 ≤ bucketOf h ∧ bucketOf h ≤ 255 := by
  unfold bucketOf
  have h0 : (0 : ℚ) ≤ (h : ℚ) / 5 := by positivity
  have h51 : ((h : ℚ)) / 5 ≤ 51 := by
    have hc : (h : ℚ) ≤ 255 := by exact_mod_cast hle
    linarith
  obtain ⟨a, b⟩ := pyRound_bounds _ h0 h51
  constructor <;> omega

theorem pyMaxKey_mem (f : Int → ℕ) (l : List Int) (acc : Int) :
    pyMaxKey f acc l ∈ acc :: l := by
  induction l generalizing acc with
  | nil => simp [pyMaxKey]
  | cons x xs ih =>
    rw [pyMaxKey]
    rcases List.mem_cons.mp (ih (if f acc < f x then x else acc)) with h1 | h2
    · rw [h1]
      split_ifs
      · exact List.mem_cons_of_mem _ (List.mem_cons_self _ _)
      · exact List.mem_cons_self _ _
    · exact List.mem_cons_of_mem _ (List.mem_cons_of_mem _ h2)

theorem dedupFirst_subset (l : List Int) (m : Int) (h : m ∈ dedupFirst l) : m ∈ l := by
  induction l with
  | nil => simp [dedupFirst] at h
  | cons x xs ih =>
    rw [dedupFirst] at h
    rcases List.mem_cons.mp h with h1 | h2
    · exact h1 ▸ List.mem_cons_self _ _
    · exact List.mem_cons_of_mem _ (ih (List.mem_of_mem_filter h2))

theorem extract_dominant_from_hues_range (hues : List ℕ) (q : ℚ)
    (hb : ∀ h ∈ hues, h ≤ 255) (heq : extract_dominant_from_hues hues = .ok q) :
    0 ≤ q ∧ q ≤ 360 := by
  simp only [extract_dominant_from_hues] at heq
  split_ifs at heq with hnil hkeys <;>
    first
      | (simp only [Except.ok.injEq] at heq
         subst heq
         set keys := dedupFirst (hues.map bucketOf) with hk
         have hmem : pyMaxKey (fun x => (hues.map bucketOf).count x)
             (keys.headD 0) keys.tail ∈ keys.headD 0 :: keys.tail := pyMaxKey_mem _ _ _
         have hcons : keys.headD 0 :: keys.tail = keys := by
           cases hc : keys with
           | nil => exact absurd hc hkeys
           | cons a as => simp
         rw [hcons] at hmem
         have hd : pyMaxKey (fun x => (hues.map bucketOf).count x)
             (keys.headD 0) keys.tail ∈ hues.map bucketOf := dedupFirst_subset _ _ hmem
         obtain ⟨h0, hmem0, hfe⟩ := List.mem_map.mp hd
         rw [← hfe]
         obtain ⟨g0, g255⟩ := bucketOf_bounds h0 (hb h0 hmem0)
         have gq0 : (0 : ℚ) ≤ (bucketOf h0 : ℚ) := by exact_mod_cast g0
         have gq255 : ((bucketOf h0 : ℚ)) ≤ 255 := by exact_mod_cast g255
         constructor
         · positivity
         · rw [div_mul_eq_mul_div, div_le_iff₀ (by norm_num)]
           nlinarith)
      | simp at heq

/-- C2 (counterexample): an image analysis that succeeds can return exactly
360, not a value strictly below 360 — a single pixel with 8-bit hue sample
255 buckets to 255 and converts to (255/255)·360 = 360. -/
theorem extract_dominant_color_can_return_360 :
    extract_dominant_color [0] (.ok [(255, 0, 0)]) false = .ok 360 ∧
    ¬ ((360 : ℚ) < 360) := by
  constructor
  · norm_num [extract_dominant_color, extract_dominant_from_hues, bucketOf, pyRound,
      dedupFirst, pyMaxKey]
  · norm_num

/-- C2 (amended): `hex_to_hue` returns a hue in [0, 360) on every input it
accepts; `extract_dominant_color` on an image whose pixels carry 8-bit hue
samples returns, whenever it succeeds, a hue in [0, 360] — the upper bound
360 itself is attainable (exactly when the dominant bucket is 255), so the
image path satisfies only the closed bound. -/
theorem hue_source_ranges :
    (∀ s q, hex_to_hue s = .ok q → 0 ≤ q ∧ q < 360) ∧
    (∀ (imageBytes : List ℕ) (pixels : List (ℕ × ℕ × ℕ)) (failFlag : Bool) (q : ℚ),
      (∀ p ∈ pixels, p.1 ≤ 255) →
      extract_dominant_color imageBytes (.ok pixels) failFlag = .ok q →
      0 ≤ q ∧ q ≤ 360) := by
  refine ⟨hex_to_hue_ok_range, ?_⟩
  intro imageBytes pixels failFlag q hp heq
  simp only [extract_dominant_color] at heq
  split_ifs at heq <;>
    first
      | (refine extract_dominant_from_hues_range _ _ ?_ heq
         intro h hmem
         obtain ⟨p, hpmem, hpe⟩ := List.mem_map.mp hmem
         exact hpe ▸ hp p hpmem)
      | (simp only [Except.ok.injEq] at heq; subst heq; norm_num)
      | simp at heq

/-- Witness for C2 at concrete inputs: the hex path on "00FF00" yields hue
120 ∈ [0, 360); the image path on a single pixel of hue sample 255 yields
360 ∈ [0, 360]. -/
theorem hue_source_ranges_witness :
    (0 ≤ (120 : ℚ) ∧ (120 : ℚ) < 360) ∧ (0 ≤ (360 : ℚ) ∧ (360 : ℚ) ≤ 360) :=
  ⟨hue_source_ranges.1 ['0', '0', 'F', 'F', '0', '0'] 120
      (by
        have h : hex_to_hue ['0', '0', 'F', 'F', '0', '0']
            = .ok (rgb_to_hsv_h ((0 : ℚ) / 255) ((255 : ℚ) / 255) ((0 : ℚ) / 255) * 360) :=
          rfl
        rw [h, show (255 : ℚ) / 255 = 1 by norm_num, show (0 : ℚ) / 255 = 0 by norm_num]
        norm_num [rgb_to_hsv_h]),
   hue_source_ranges.2 [0] [(255, 0, 0)] false 360 (by simp)
      (by norm_num [extract_dominant_color, extract_dominant_from_hues, bucketOf,
        pyRound, dedupFirst, pyMaxKey])⟩

/-- C6 (counterexample): the claim reads "after stripping an optional '#'
prefix"; the input "##FF0000" is malformed under that reading, yet
`hex_to_hue` (whose `lstrip('#')` removes every leading '#') accepts it and
returns hue 0 instead of raising. -/
theorem hex_to_hue_accepts_double_hash :
    ¬ specWellFormedHex ('#' :: '#' :: 'F' :: 'F' :: '0' :: '0' :: '0' :: '0' :: []) ∧
    hex_to_hue ('#' :: '#' :: 'F' :: 'F' :: '0' :: '0' :: '0' :: '0' :: []) = .ok 0 := by
  constructor
  · unfold specWellFormedHex stripOneHash
    decide
  · have h : hex_to_hue ('#' :: '#' :: 'F' :: 'F' :: '0' :: '0' :: '0' :: '0' :: [])
        = .ok (rgb_to_hsv_h ((255 : ℚ) / 255) ((0 : ℚ) / 255) ((0 : ℚ) / 255) * 360) :=
      rfl
    rw [h, show (255 : ℚ) / 255 = 1 by norm_num, show (0 : ℚ) / 255 = 0 by norm_num]
    norm_num [rgb_to_hsv_h]

/-- C6 (amended): `hex_to_hue` raises `ValueError` (the spec's
InvalidColorFormat) exactly when, after stripping ALL leading '#'
characters, the remainder is not a string of 3 or 6 hex digits — in
particular for "GGGGGG", "12345" and "" — and on every other input it
returns a hue; it never absorbs a failure into a default hue. -/
theorem hex_to_hue_error_iff_not_goodHex (s : List Char) :
    hex_to_hue s = .error .valueError ↔ ¬ goodHex s := by
  unfold goodHex
  by_cases hnil : s = []
  · subst hnil
    simp [hex_to_hue, lstripHash]
  · by_cases hlen : (lstripHash s).length = 3 ∨ (lstripHash s).length = 6
    · by_cases hall : (if (lstripHash s).length = 3 then expand3 (lstripHash s)
          else lstripHash s).all isPyHexDigit = true
      · simp only [hex_to_hue]
        rw [if_neg hnil, if_pos hlen, if_pos hall]
        simp [hlen, hall]
      · simp only [hex_to_hue]
        rw [if_neg hnil, if_pos hlen, if_neg hall]
        simp [hall]
    · simp only [hex_to_hue]
      rw [if_neg hnil, if_neg hlen]
      simp [hlen]

/-- C7: `extract_dominant_color` raises `ValueError` (the spec's
InvalidImageFormat) when the byte buffer is empty or the image is not
decodable; when the image decodes but some unexpected non-`ValueError`
failure occurs after input validation, it returns the default hue 60.0
instead of propagating the exception. -/
theorem extract_dominant_color_error_policy
    (imageBytes : List ℕ) (dec : DecodeResult) (failFlag : Bool) :
    ((imageBytes = [] ∨ dec = .fail) →
      extract_dominant_color imageBytes dec failFlag = .error .valueError) ∧
    (imageBytes ≠ [] → ∀ pixels, dec = .ok pixels → failFlag = true →
      extract_dominant_color imageBytes dec failFlag = .ok 60) := by
  constructor
  · rintro (h | h)
    · simp [extract_dominant_color, h]
    · subst h
      simp only [extract_dominant_color]
      split_ifs <;> rfl
  · intro hne pixels hdec hff
    subst hdec
    subst hff
    simp [extract_dominant_color, hne]

/-- Witness for C7: empty bytes (with a failing decode) raise `ValueError`;
a decodable one-pixel image with an unexpected internal failure returns the
default hue 60. -/
theorem extract_dominant_color_error_policy_witness :
    extract_dominant_color [] .fail false = .error .valueError ∧
    extract_dominant_color [1] (.ok [(10, 2, 3)]) true = .ok 60 :=
  ⟨(extract_dominant_color_error_policy [] .fail false).1 (Or.inl rfl),
   (extract_dominant_color_error_policy [1] (.ok [(10, 2, 3)]) true).2
     (by simp) [(10, 2, 3)] rfl rfl⟩

/-- C9: on a valid 3-hex-digit color, with or without the '#' prefix,
`hex_to_hue` returns exactly the hue of the 6-digit form obtained by
doubling each digit. -/
theorem hex_to_hue_three_digit_doubling (c1 c2 c3 : Char)
    (h1 : isPyHexDigit c1 = true) (h2 : isPyHexDigit c2 = true)
    (h3 : isPyHexDigit c3 = true) :
    hex_to_hue [c1, c2, c3] = hex_to_hue [c1, c1, c2, c2, c3, c3] ∧
    hex_to_hue ('#' :: [c1, c2, c3]) = hex_to_hue [c1, c1, c2, c2, c3, c3] := by
  have n1 : ¬ (c1 = '#') := by
    intro hc; subst hc; exact absurd h1 (by decide)
  constructor <;>
    simp [hex_to_hue, lstripHash, expand3, n1, h1, h2, h3]

/-- Witness for C9: "F00" (and "#F00") yields the same hue as "FF0000". -/
theorem hex_to_hue_three_digit_doubling_witness :
    hex_to_hue ['F', '0', '0'] = hex_to_hue ['F', 'F', '0', '0', '0', '0'] ∧
    hex_to_hue ('#' :: ['F', '0', '0']) = hex_to_hue ['F', 'F', '0', '0', '0', '0'] :=
  hex_to_hue_three_digit_doubling 'F' '0' '0' (by decide) (by decide) (by decide)

/-- C10: every achromatic hex color (equal R, G and B channels, with or
without '#') has hue exactly 0, and `hue_to_stage` sends hue 0 to stage 7
(Brown Flecks). -/
theorem achromatic_hex_hue_zero_stage_seven (d1 d2 : Char)
    (h1 : isPyHexDigit d1 = true) (h2 : isPyHexDigit d2 = true) :
    hex_to_hue [d1, d2, d1, d2, d1, d2] = .ok 0 ∧
    hex_to_hue ('#' :: [d1, d2, d1, d2, d1, d2]) = .ok 0 ∧
    hue_to_stage 0 = 7 := by
  have n1 : ¬ (d1 = '#') := by
    intro hc; subst hc; exact absurd h1 (by decide)
  have hz : ∀ r : ℚ, rgb_to_hsv_h r r r = 0 := by
    intro r; simp [rgb_to_hsv_h, max_self, min_self]
  refine ⟨?_, ?_, ?_⟩
  · simp [hex_to_hue, lstripHash, n1, h1, h2, List.getD, hz]
  · simp [hex_to_hue, lstripHash, n1, h1, h2, List.getD, hz]
  · norm_num [hue_to_stage, stageOfNormalized, pymod]

/-- Witness for C10 at "#FFFFFF" and "FFFFFF": hue 0, classified stage 7. -/
theorem achromatic_hex_hue_zero_stage_seven_witness :
    hex_to_hue ['F', 'F', 'F', 'F', 'F', 'F'] = .ok 0 ∧
    hex_to_hue ('#' :: ['F', 'F', 'F', 'F', 'F', 'F']) = .ok 0 ∧
    hue_to_stage 0 = 7 :=
  achromatic_hex_hue_zero_stage_seven 'F' 'F' (by decide) (by decide)

end ColorDetection
